import Mathlib

/-!
# Verification of the MPC core (src/MPC.cpp)

A shallow embedding of the model-predictive-controller core: the
`FG_eval` functor (objective and constraint residual assembly) and
`MPC::Solve` (decision-vector seeding, bound arrays, solver invocation
and result extraction).

Doubles are modelled as rationals.  The evaluator is written against an
abstract trig interface (`TrigOps`), matching the code's use of a generic
differentiable numeric type (`CppAD::AD<double>` with `CppAD::cos` etc.):
every structural fact proved below holds for any interpretation of
cos/sin/atan, and facts that need a property of a trig function take it
as an explicit hypothesis.
-/

namespace MPCModel

/-- Modelled from the spec: the process-wide horizon parameters `N`, `dt`,
`Lf`, `ref_v` are constants declared in the header `MPC.h`, which is not
part of the provided sources; the spec (§3) describes them as process-wide
constants with no fixed numeric values, so they are carried in a
configuration record and all results are proved for every value. -/
structure Config where
  N : ℕ
  dt : ℚ
  Lf : ℚ
  ref_v : ℚ

/-- Modelled from the spec: the channel start offsets (`x_start`,
`y_start`, ..., `a_start`) live in the missing header `MPC.h`.  The spec
(§3, DecisionVector) fixes the layout: the six state channels are stored
contiguously per field across all `N` timesteps, followed by the two
control channels across `N - 1` actuation steps.  This matches every use
in `MPC.cpp` (`vars[x_start + t]`, the three bound-setting loops, etc.). -/
def x_start (_cfg : Config) : ℕ := 0

/-- Start offset of the `y` channel. -/
def y_start (cfg : Config) : ℕ := cfg.N

/-- Start offset of the `psi` channel. -/
def psi_start (cfg : Config) : ℕ := 2 * cfg.N

/-- Start offset of the `v` channel. -/
def v_start (cfg : Config) : ℕ := 3 * cfg.N

/-- Start offset of the `cte` channel. -/
def cte_start (cfg : Config) : ℕ := 4 * cfg.N

/-- Start offset of the `epsi` channel. -/
def epsi_start (cfg : Config) : ℕ := 5 * cfg.N

/-- Start offset of the steering channel. -/
def delta_start (cfg : Config) : ℕ := 6 * cfg.N

/-- Start offset of the acceleration channel. -/
def a_start (cfg : Config) : ℕ := 6 * cfg.N + (cfg.N - 1)

/-- `size_t n_vars = N * 6 + (N - 1) * 2;` (MPC.cpp line 128). -/
def n_vars (cfg : Config) : ℕ := cfg.N * 6 + (cfg.N - 1) * 2

/-- `size_t n_constraints = N * 6;` (MPC.cpp line 130). -/
def n_constraints (cfg : Config) : ℕ := cfg.N * 6

/-- Abstract interpretation of the trig primitives used by the evaluator
(`CppAD::cos`, `CppAD::sin`, `CppAD::atan`). -/
structure TrigOps where
  cos : ℚ → ℚ
  sin : ℚ → ℚ
  atan : ℚ → ℚ

/-- Unchecked Eigen-style element access (`state[k]`, `coeffs[k]`): the
C++ `operator[]` performs no bounds check, so out-of-range reads are
modelled by the default value 0. -/
def elt (xs : List ℚ) (k : ℕ) : ℚ := xs.getD k 0

/-- The six assignments shared by MPC.cpp lines 140-145 and 176-188:
overwrite the channel-start slots of `base` with the observed state. -/
def pinState (cfg : Config) (state : List ℚ) (base : List ℚ) : List ℚ :=
  (((((base.set (x_start cfg)
      (elt state 0)).set (y_start cfg) (elt state 1)).set (psi_start cfg)
      (elt state 2)).set (v_start cfg) (elt state 3)).set (cte_start cfg)
      (elt state 4)).set (epsi_start cfg) (elt state 5)

/-- MPC.cpp lines 134-145: the decision-vector seed — all entries zero,
then the six `t = 0` state slots are overwritten with the observed
vehicle state. -/
def buildVars (cfg : Config) (state : List ℚ) : List ℚ :=
  pinState cfg state (List.replicate (n_vars cfg) (0 : ℚ))

/-- MPC.cpp lines 149-165, lower bounds: `-1.0e19` for every index below
`delta_start`, `-0.436332` for the steering block, `-1.0` for the
acceleration block. -/
def vars_lowerbound (cfg : Config) : List ℚ :=
  List.ofFn (fun i : Fin (n_vars cfg) =>
    if i.val < delta_start cfg then -(10 ^ 19 : ℚ)
    else if i.val < a_start cfg then -0.436332
    else -1)

/-- MPC.cpp lines 149-165, upper bounds. -/
def vars_upperbound (cfg : Config) : List ℚ :=
  List.ofFn (fun i : Fin (n_vars cfg) =>
    if i.val < delta_start cfg then (10 ^ 19 : ℚ)
    else if i.val < a_start cfg then 0.436332
    else 1)

/-- MPC.cpp lines 169-181: constraint lower bounds — zero everywhere,
then the six initial-state rows (at the channel start offsets) are set to
the observed state. -/
def constraints_lowerbound (cfg : Config) (state : List ℚ) : List ℚ :=
  pinState cfg state (List.replicate (n_constraints cfg) (0 : ℚ))

/-- MPC.cpp lines 169-188: constraint upper bounds — identical to the
lower bounds (equality rows). -/
def constraints_upperbound (cfg : Config) (state : List ℚ) : List ℚ :=
  constraints_lowerbound cfg state

/-- MPC.cpp line 84: `f0 = coeffs[0] + coeffs[1]*x0 + coeffs[2]*x0*x0 +
coeffs[3]*x0*x0*x0`. -/
def f0 (coeffs : List ℚ) (x : ℚ) : ℚ :=
  elt coeffs 0 + elt coeffs 1 * x + elt coeffs 2 * x * x +
    elt coeffs 3 * x * x * x

/-- MPC.cpp line 85: `psides0 = atan(3*coeffs[3]*x0*x0 + 2*coeffs[2]*x0 +
coeffs[1])`. -/
def psides0 (T : TrigOps) (coeffs : List ℚ) (x : ℚ) : ℚ :=
  T.atan (3 * elt coeffs 3 * x * x + 2 * elt coeffs 2 * x + elt coeffs 1)

/-- Constraint row `1 + x_start + t` of `fg`: the raw initial value for
`t = 0` (MPC.cpp line 56) and the dynamics residual
`x1 - (x0 + v0 * cos(psi0) * dt)` for `t ≥ 1` (line 101). -/
def fg_x (cfg : Config) (T : TrigOps) (vars : ℕ → ℚ) (t : ℕ) : ℚ :=
  if t = 0 then vars (x_start cfg)
  else vars (x_start cfg + t) -
    (vars (x_start cfg + (t - 1)) +
      vars (v_start cfg + (t - 1)) * T.cos (vars (psi_start cfg + (t - 1))) *
        cfg.dt)

/-- Constraint row `1 + y_start + t` of `fg` (MPC.cpp lines 57, 102). -/
def fg_y (cfg : Config) (T : TrigOps) (vars : ℕ → ℚ) (t : ℕ) : ℚ :=
  if t = 0 then vars (y_start cfg)
  else vars (y_start cfg + t) -
    (vars (y_start cfg + (t - 1)) +
      vars (v_start cfg + (t - 1)) * T.sin (vars (psi_start cfg + (t - 1))) *
        cfg.dt)

/-- Constraint row `1 + psi_start + t` of `fg` (MPC.cpp lines 58, 103):
residual `psi1 - (psi0 + (v0 / Lf) * delta0 * dt)`. -/
def fg_psi (cfg : Config) (vars : ℕ → ℚ) (t : ℕ) : ℚ :=
  if t = 0 then vars (psi_start cfg)
  else vars (psi_start cfg + t) -
    (vars (psi_start cfg + (t - 1)) +
      vars (v_start cfg + (t - 1)) / cfg.Lf *
        vars (delta_start cfg + (t - 1)) * cfg.dt)

/-- Constraint row `1 + v_start + t` of `fg` (MPC.cpp lines 59, 104):
residual `v1 - (v0 + a0 * dt)`. -/
def fg_v (cfg : Config) (vars : ℕ → ℚ) (t : ℕ) : ℚ :=
  if t = 0 then vars (v_start cfg)
  else vars (v_start cfg + t) -
    (vars (v_start cfg + (t - 1)) + vars (a_start cfg + (t - 1)) * cfg.dt)

/-- Constraint row `1 + cte_start + t` of `fg` (MPC.cpp lines 60, 105):
residual `cte1 - ((f0 - y0) + (v0 * sin(epsi0) * dt))`. -/
def fg_cte (cfg : Config) (T : TrigOps) (coeffs : List ℚ) (vars : ℕ → ℚ)
    (t : ℕ) : ℚ :=
  if t = 0 then vars (cte_start cfg)
  else vars (cte_start cfg + t) -
    ((f0 coeffs (vars (x_start cfg + (t - 1))) - vars (y_start cfg + (t - 1))) +
      vars (v_start cfg + (t - 1)) * T.sin (vars (epsi_start cfg + (t - 1))) *
        cfg.dt)

/-- Constraint row `1 + epsi_start + t` of `fg` (MPC.cpp lines 61, 106):
residual `epsi1 - ((psi0 - psides0) + v0 * delta0 / Lf * dt)`. -/
def fg_epsi (cfg : Config) (T : TrigOps) (coeffs : List ℚ) (vars : ℕ → ℚ)
    (t : ℕ) : ℚ :=
  if t = 0 then vars (epsi_start cfg)
  else vars (epsi_start cfg + t) -
    ((vars (psi_start cfg + (t - 1)) -
        psides0 T coeffs (vars (x_start cfg + (t - 1)))) +
      vars (v_start cfg + (t - 1)) * vars (delta_start cfg + (t - 1)) /
        cfg.Lf * cfg.dt)

/-- The constraint row of channel `k` (0 = x, ..., 5 = epsi) at step `t`. -/
def fgChan (cfg : Config) (T : TrigOps) (coeffs : List ℚ) (vars : ℕ → ℚ)
    (k t : ℕ) : ℚ :=
  match k with
  | 0 => fg_x cfg T vars t
  | 1 => fg_y cfg T vars t
  | 2 => fg_psi cfg vars t
  | 3 => fg_v cfg vars t
  | 4 => fg_cte cfg T coeffs vars t
  | _ => fg_epsi cfg T coeffs vars t

/-- The assembled constraint part of `fg` (entries `fg[1]` through
`fg[n_constraints]`).  The code writes `fg[1 + chanStart + t]` once per
channel and step; with the channel-contiguous layout the row at flat
index `i` is channel `i / N` at step `i % N`. -/
def fgVec (cfg : Config) (T : TrigOps) (coeffs : List ℚ) (vars : ℕ → ℚ) :
    List ℚ :=
  List.ofFn (fun i : Fin (n_constraints cfg) =>
    fgChan cfg T coeffs vars (i.val / cfg.N) (i.val % cfg.N))

/-- MPC.cpp lines 22-49: the scalar objective assembled into `fg[0]`,
rendered as the code's four accumulation loops. -/
def cost (cfg : Config) (vars : ℕ → ℚ) : ℚ :=
  let c1 := (List.range cfg.N).foldl
    (fun c t => c + 1000 * (vars (cte_start cfg + t)) ^ 2 +
      1000 * (vars (epsi_start cfg + t)) ^ 2) 0
  let c2 := (List.range (cfg.N - 1)).foldl
    (fun c t => c + 10 * (vars (v_start cfg + (t + 1)) - cfg.ref_v) ^ 2) c1
  let c3 := (List.range (cfg.N - 1)).foldl
    (fun c t => c + 3 * (vars (delta_start cfg + t)) ^ 2 +
      3 * (vars (a_start cfg + t)) ^ 2) c2
  (List.range (cfg.N - 2)).foldl
    (fun c t => c + 1000 * (vars (delta_start cfg + (t + 1)) -
        vars (delta_start cfg + t)) ^ 2 +
      1 * (vars (a_start cfg + (t + 1)) - vars (a_start cfg + t)) ^ 2) c3

/-- The status codes of `CppAD::ipopt::solve_result` that matter here:
`MPC::Solve` only ever compares against `success` (MPC.cpp line 220). -/
inductive SolveStatus where
  | success
  | maxiter_exceeded
  | stop_at_tiny_step
  | local_infeasibility
  | invalid_number_detected
  | internal_error
  deriving DecidableEq, Repr

/-- `CppAD::ipopt::solve_result<Dvector>`: the fields `MPC::Solve` reads
(`status`, `obj_value`, `x`). -/
structure SolveResult where
  status : SolveStatus
  obj_value : ℚ
  x : List ℚ

/-- The problem handed to `CppAD::ipopt::solve` (MPC.cpp lines 215-217):
seed, variable bounds, constraint bounds, and the polynomial coefficients
captured by the `FG_eval` evaluator. -/
structure NLPProblem where
  vars : List ℚ
  vars_lowerbound : List ℚ
  vars_upperbound : List ℚ
  constraints_lowerbound : List ℚ
  constraints_upperbound : List ℚ
  coeffs : List ℚ

/-- The problem `MPC::Solve` assembles before invoking the solver. -/
def mkProblem (cfg : Config) (state coeffs : List ℚ) : NLPProblem :=
  { vars := buildVars cfg state
    vars_lowerbound := vars_lowerbound cfg
    vars_upperbound := vars_upperbound cfg
    constraints_lowerbound := constraints_lowerbound cfg state
    constraints_upperbound := constraints_upperbound cfg state
    coeffs := coeffs }

/-- MPC.cpp lines 117-240: `MPC::Solve`.  The external IPOPT solver is an
oracle mapping the assembled problem to a `SolveResult`.  The function

* assembles the problem and calls the solver,
* computes `ok &= (status == success)` — the code then never reads `ok`,
* prints `"Cost " << cost` to standard output (line 224), modelled as the
  second component of the returned pair,
* copies `solution.x` into the returned `vector<double>` (lines 235-239).

Its C++ return type is a bare `vector<double>`: there is no status, error
or exception channel, and no member state is touched (`MPC` has no data
members). -/
def Solve (cfg : Config) (solver : NLPProblem → SolveResult)
    (state coeffs : List ℚ) : List ℚ × List String :=
  let solution := solver (mkProblem cfg state coeffs)
  let _ok : Bool := solution.status == SolveStatus.success
  (solution.x, ["Cost " ++ toString solution.obj_value])

/-! ## Spec-side definitions

These re-state formulas in the spec's own words, to be compared with the
definitions above that were read off the source. -/

/-- Spec §4.2: `x1_pred = x0 + v0*cos(psi0)*dt`. -/
def xPredSpec (T : TrigOps) (dt x0 v0 psi0 : ℚ) : ℚ :=
  x0 + v0 * T.cos psi0 * dt

/-- Spec §4.2: `y1_pred = y0 + v0*sin(psi0)*dt`. -/
def yPredSpec (T : TrigOps) (dt y0 v0 psi0 : ℚ) : ℚ :=
  y0 + v0 * T.sin psi0 * dt

/-- Spec §4.2: `psi1_pred = psi0 + (v0/Lf)*delta0*dt`. -/
def psiPredSpec (dt Lf psi0 v0 delta0 : ℚ) : ℚ :=
  psi0 + v0 / Lf * delta0 * dt

/-- Spec §4.2: `v1_pred = v0 + a0*dt`. -/
def vPredSpec (dt v0 a0 : ℚ) : ℚ := v0 + a0 * dt

/-- Spec §4.2: `cte1_pred = (f0 - y0) + v0*sin(epsi0)*dt` with
`f0 = coeff[0] + coeff[1]*x0 + coeff[2]*x0^2 + coeff[3]*x0^3`. -/
def ctePredSpec (T : TrigOps) (dt : ℚ) (coeffs : List ℚ)
    (x0 y0 v0 epsi0 : ℚ) : ℚ :=
  (elt coeffs 0 + elt coeffs 1 * x0 + elt coeffs 2 * x0 ^ 2 +
      elt coeffs 3 * x0 ^ 3 - y0) +
    v0 * T.sin epsi0 * dt

/-- Spec §4.2: `epsi1_pred = (psi0 - psides0) + v0*delta0/Lf*dt` with
`psides0 = atan(3*coeff[3]*x0^2 + 2*coeff[2]*x0 + coeff[1])`. -/
def epsiPredSpec (T : TrigOps) (dt Lf : ℚ) (coeffs : List ℚ)
    (x0 psi0 v0 delta0 : ℚ) : ℚ :=
  (psi0 - T.atan (3 * elt coeffs 3 * x0 ^ 2 + 2 * elt coeffs 2 * x0 +
      elt coeffs 1)) +
    v0 * delta0 / Lf * dt

/-- Spec §4.2 / claim C5: the objective as a closed sum of the seven
weighted squared-error families. -/
def costSpec (cfg : Config) (vars : ℕ → ℚ) : ℚ :=
  (∑ t ∈ Finset.range cfg.N, 1000 * (vars (cte_start cfg + t)) ^ 2) +
  (∑ t ∈ Finset.range cfg.N, 1000 * (vars (epsi_start cfg + t)) ^ 2) +
  (∑ t ∈ Finset.Ico 1 cfg.N, 10 * (vars (v_start cfg + t) - cfg.ref_v) ^ 2) +
  (∑ t ∈ Finset.range (cfg.N - 1), 3 * (vars (delta_start cfg + t)) ^ 2) +
  (∑ t ∈ Finset.range (cfg.N - 1), 3 * (vars (a_start cfg + t)) ^ 2) +
  (∑ t ∈ Finset.range (cfg.N - 2),
    1000 * (vars (delta_start cfg + (t + 1)) - vars (delta_start cfg + t)) ^ 2) +
  (∑ t ∈ Finset.range (cfg.N - 2),
    1 * (vars (a_start cfg + (t + 1)) - vars (a_start cfg + t)) ^ 2)

/-- A concrete well-formed configuration used for evaluation: `N = 3`,
`dt = 0.1`, `Lf = 2.67`, `ref_v = 40` (representative values for the
constants of the missing header). -/
def testConfig : Config :=
  { N := 3, dt := 1 / 10, Lf := 267 / 100, ref_v := 40 }

/-- A concrete ill-formed configuration: `N = 2 < 3` and `Lf = 0`. -/
def badConfig : Config :=
  { N := 2, dt := 1 / 10, Lf := 0, ref_v := 40 }

/-- A concrete computable interpretation of the trig primitives (it
satisfies `atan 0 = 0`, the property the degenerate-case analysis
needs). -/
def testTrig : TrigOps :=
  { cos := fun q => 1 - q ^ 2 / 2, sin := fun q => q, atan := fun q => q }

/-- The all-zero decision vector. -/
def zeroVars : ℕ → ℚ := fun _ => 0

/-- The zero vehicle state `(0, 0, 0, 0, 0, 0)`. -/
def zeroState : List ℚ := [0, 0, 0, 0, 0, 0]

/-- The zero reference polynomial `(0, 0, 0, 0)`. -/
def zeroCoeffs : List ℚ := [0, 0, 0, 0]

/-! ## Helper lemmas -/

theorem range_foldl_add2 (g h : ℕ → ℚ) :
    ∀ (n : ℕ) (init : ℚ),
      (List.range n).foldl (fun c t => c + g t + h t) init =
        init + (∑ t ∈ Finset.range n, g t) + (∑ t ∈ Finset.range n, h t) := by
  intro n
  induction n with
  | zero => intro init; simp
  | succ n ih =>
    intro init
    rw [List.range_succ, List.foldl_append, ih, Finset.sum_range_succ,
      Finset.sum_range_succ]
    simp only [List.foldl_cons, List.foldl_nil]
    ring

theorem range_foldl_add1 (g : ℕ → ℚ) :
    ∀ (n : ℕ) (init : ℚ),
      (List.range n).foldl (fun c t => c + g t) init =
        init + (∑ t ∈ Finset.range n, g t) := by
  intro n
  induction n with
  | zero => intro init; simp
  | succ n ih =>
    intro init
    rw [List.range_succ, List.foldl_append, ih, Finset.sum_range_succ]
    simp only [List.foldl_cons, List.foldl_nil]
    ring

/-- The objective, as assembled by the four loops, equals its closed-sum
form. -/
theorem cost_eq_costSpec (cfg : Config) (vars : ℕ → ℚ) :
    cost cfg vars = costSpec cfg vars := by
  unfold cost costSpec
  rw [range_foldl_add2, range_foldl_add1, range_foldl_add2, range_foldl_add2,
    Finset.sum_Ico_eq_sum_range]
  simp only [Nat.add_comm 1]
  rw [zero_add]

theorem length_pinState (cfg : Config) (state base : List ℚ) :
    (pinState cfg state base).length = base.length := by
  simp [pinState]

theorem getElem_pinState (cfg : Config) (state base : List ℚ) (i : ℕ)
    (h : i < (pinState cfg state base).length) :
    (pinState cfg state base)[i] =
      if epsi_start cfg = i then elt state 5
      else if cte_start cfg = i then elt state 4
      else if v_start cfg = i then elt state 3
      else if psi_start cfg = i then elt state 2
      else if y_start cfg = i then elt state 1
      else if x_start cfg = i then elt state 0
      else base.getD i 0 := by
  have hb : i < base.length := by
    simpa [length_pinState] using h
  simp only [pinState, List.getElem_set]
  split
  · rfl
  split
  · rfl
  split
  · rfl
  split
  · rfl
  split
  · rfl
  split
  · rfl
  exact (List.getD_eq_getElem base 0 hb).symm

theorem getD_pinState (cfg : Config) (state base : List ℚ) (i : ℕ)
    (hb : i < base.length) :
    (pinState cfg state base).getD i 0 =
      if epsi_start cfg = i then elt state 5
      else if cte_start cfg = i then elt state 4
      else if v_start cfg = i then elt state 3
      else if psi_start cfg = i then elt state 2
      else if y_start cfg = i then elt state 1
      else if x_start cfg = i then elt state 0
      else base.getD i 0 := by
  have h : i < (pinState cfg state base).length := by
    simpa [length_pinState] using hb
  rw [List.getD_eq_getElem _ _ h, getElem_pinState]

theorem fgVec_getD (cfg : Config) (T : TrigOps) (coeffs : List ℚ)
    (vars : ℕ → ℚ) (k t : ℕ) (hk : k < 6) (ht : t < cfg.N) :
    (fgVec cfg T coeffs vars).getD (k * cfg.N + t) 0 =
      fgChan cfg T coeffs vars k t := by
  have hN : 0 < cfg.N := Nat.pos_of_ne_zero (by omega)
  have hlen : k * cfg.N + t < n_constraints cfg := by
    unfold n_constraints
    have h1 : k * cfg.N + t < (k + 1) * cfg.N := by
      simp [Nat.add_mul]; omega
    have h2 : (k + 1) * cfg.N ≤ 6 * cfg.N :=
      Nat.mul_le_mul_right _ (by omega)
    omega
  have hlen2 : k * cfg.N + t < (fgVec cfg T coeffs vars).length := by
    simpa [fgVec, List.length_ofFn] using hlen
  rw [List.getD_eq_getElem _ _ hlen2]
  simp only [fgVec]
  rw [List.getElem_ofFn]
  have hdiv : (k * cfg.N + t) / cfg.N = k := by
    rw [Nat.mul_comm k cfg.N, Nat.mul_add_div hN, Nat.div_eq_of_lt ht,
      Nat.add_zero]
  have hmod : (k * cfg.N + t) % cfg.N = t := by
    rw [Nat.mul_comm k cfg.N, Nat.mul_add_mod, Nat.mod_eq_of_lt ht]
  rw [hdiv, hmod]

/-! ## Claim theorems -/

/-- C4: for every decision vector and every `t` in `[1, N)`, the
constraint residual of each of the six state channels equals the step-`t`
value minus the value predicted from step `t - 1` by the spec's kinematic
formulas (`x1_pred = x0 + v0*cos(psi0)*dt`, ...,
`epsi1_pred = (psi0 - psides0) + v0*delta0/Lf*dt` with the cubic `f0` and
`psides0 = atan(3*coeff[3]*x0^2 + 2*coeff[2]*x0 + coeff[1])`). -/
theorem dynamics_residuals_match_spec (cfg : Config) (T : TrigOps)
    (coeffs : List ℚ) (vars : ℕ → ℚ) (t : ℕ) (h1 : 1 ≤ t)
    (_h2 : t < cfg.N) :
    fg_x cfg T vars t =
      vars (x_start cfg + t) -
        xPredSpec T cfg.dt (vars (x_start cfg + (t - 1)))
          (vars (v_start cfg + (t - 1))) (vars (psi_start cfg + (t - 1))) ∧
    fg_y cfg T vars t =
      vars (y_start cfg + t) -
        yPredSpec T cfg.dt (vars (y_start cfg + (t - 1)))
          (vars (v_start cfg + (t - 1))) (vars (psi_start cfg + (t - 1))) ∧
    fg_psi cfg vars t =
      vars (psi_start cfg + t) -
        psiPredSpec cfg.dt cfg.Lf (vars (psi_start cfg + (t - 1)))
          (vars (v_start cfg + (t - 1))) (vars (delta_start cfg + (t - 1))) ∧
    fg_v cfg vars t =
      vars (v_start cfg + t) -
        vPredSpec cfg.dt (vars (v_start cfg + (t - 1)))
          (vars (a_start cfg + (t - 1))) ∧
    fg_cte cfg T coeffs vars t =
      vars (cte_start cfg + t) -
        ctePredSpec T cfg.dt coeffs (vars (x_start cfg + (t - 1)))
          (vars (y_start cfg + (t - 1))) (vars (v_start cfg + (t - 1)))
          (vars (epsi_start cfg + (t - 1))) ∧
    fg_epsi cfg T coeffs vars t =
      vars (epsi_start cfg + t) -
        epsiPredSpec T cfg.dt cfg.Lf coeffs (vars (x_start cfg + (t - 1)))
          (vars (psi_start cfg + (t - 1))) (vars (v_start cfg + (t - 1)))
          (vars (delta_start cfg + (t - 1))) := by
  have ht : ¬t = 0 := by omega
  refine ⟨?_, ?_, ?_, ?_, ?_, ?_⟩
  · rw [fg_x, if_neg ht, xPredSpec]
  · rw [fg_y, if_neg ht, yPredSpec]
  · rw [fg_psi, if_neg ht, psiPredSpec]
  · rw [fg_v, if_neg ht, vPredSpec]
  · rw [fg_cte, if_neg ht, ctePredSpec, f0]
    ring_nf
  · rw [fg_epsi, if_neg ht, epsiPredSpec, psides0]
    ring_nf

/-- Witness for C4: the residual identity instantiated at the concrete
configuration, trig interpretation and the all-zero decision vector, with
`t = 1`. -/
theorem dynamics_residuals_match_spec_witness :
    (1 ≤ 1 ∧ 1 < testConfig.N) ∧
    fg_x testConfig testTrig zeroVars 1 =
      zeroVars (x_start testConfig + 1) -
        xPredSpec testTrig testConfig.dt
          (zeroVars (x_start testConfig + (1 - 1)))
          (zeroVars (v_start testConfig + (1 - 1)))
          (zeroVars (psi_start testConfig + (1 - 1))) :=
  ⟨⟨le_refl 1, by decide⟩,
    (dynamics_residuals_match_spec testConfig testTrig zeroCoeffs zeroVars 1
      (by decide) (by decide)).1⟩

/-- C5: for every candidate decision vector the scalar objective equals
the sum of exactly the seven weighted squared-term families
(1000·cte², 1000·epsi² over `[0,N)`; 10·(v − ref_v)² over `[1,N)`;
3·delta², 3·a² over `[0,N-1)`; 1000·(Δdelta)², 1·(Δa)² over `[0,N-2)`). -/
theorem objective_is_weighted_sum (cfg : Config) (vars : ℕ → ℚ) :
    cost cfg vars = costSpec cfg vars :=
  cost_eq_costSpec cfg vars

/-- C10: for every decision vector (and any coefficient vector — the
objective does not read the coefficients) the objective assembled into
`fg[0]` is nonnegative. -/
theorem objective_nonneg (cfg : Config) (_coeffs : List ℚ)
    (vars : ℕ → ℚ) : 0 ≤ cost cfg vars := by
  rw [cost_eq_costSpec]
  unfold costSpec
  positivity

/-- C6: in the decision-variable bound arrays, every state-channel entry
(the first `6N` slots) is bounded by `±1e19`, every steering entry by
`±0.436332`, every acceleration entry by `±1`, and both arrays have the
decision vector's length (so the same ordering of channels). -/
theorem decision_bounds (cfg : Config) :
    (vars_lowerbound cfg).length = n_vars cfg ∧
    (vars_upperbound cfg).length = n_vars cfg ∧
    (∀ i, i < 6 * cfg.N →
      (vars_lowerbound cfg).getD i 0 = -(10 ^ 19) ∧
      (vars_upperbound cfg).getD i 0 = 10 ^ 19) ∧
    (∀ t, t < cfg.N - 1 →
      (vars_lowerbound cfg).getD (delta_start cfg + t) 0 = -0.436332 ∧
      (vars_upperbound cfg).getD (delta_start cfg + t) 0 = 0.436332) ∧
    (∀ t, t < cfg.N - 1 →
      (vars_lowerbound cfg).getD (a_start cfg + t) 0 = -1 ∧
      (vars_upperbound cfg).getD (a_start cfg + t) 0 = 1) := by
  have hlo : ∀ i, i < n_vars cfg →
      (vars_lowerbound cfg).getD i 0 =
        if i < delta_start cfg then -(10 ^ 19 : ℚ)
        else if i < a_start cfg then -0.436332
        else -1 := by
    intro i hi
    have h : i < (vars_lowerbound cfg).length := by
      simpa [vars_lowerbound, List.length_ofFn] using hi
    rw [List.getD_eq_getElem _ _ h]
    simp only [vars_lowerbound, List.getElem_ofFn]
  have hhi : ∀ i, i < n_vars cfg →
      (vars_upperbound cfg).getD i 0 =
        if i < delta_start cfg then (10 ^ 19 : ℚ)
        else if i < a_start cfg then 0.436332
        else 1 := by
    intro i hi
    have h : i < (vars_upperbound cfg).length := by
      simpa [vars_upperbound, List.length_ofFn] using hi
    rw [List.getD_eq_getElem _ _ h]
    simp only [vars_upperbound, List.getElem_ofFn]
  refine ⟨by simp [vars_lowerbound], by simp [vars_upperbound], ?_, ?_, ?_⟩
  · intro i hi
    have hn : i < n_vars cfg := by
      simp only [n_vars]; omega
    have hd : i < delta_start cfg := by
      simp only [delta_start]; omega
    rw [hlo i hn, hhi i hn, if_pos hd, if_pos hd]
    exact ⟨rfl, rfl⟩
  · intro t ht
    have hn : delta_start cfg + t < n_vars cfg := by
      simp only [delta_start, n_vars]; omega
    have hd : ¬delta_start cfg + t < delta_start cfg := by omega
    have ha : delta_start cfg + t < a_start cfg := by
      simp only [delta_start, a_start]; omega
    rw [hlo _ hn, hhi _ hn, if_neg hd, if_neg hd, if_pos ha, if_pos ha]
    exact ⟨rfl, rfl⟩
  · intro t ht
    have hn : a_start cfg + t < n_vars cfg := by
      simp only [a_start, n_vars]; omega
    have hd : ¬a_start cfg + t < delta_start cfg := by
      simp only [delta_start, a_start]; omega
    have ha : ¬a_start cfg + t < a_start cfg := by omega
    rw [hlo _ hn, hhi _ hn, if_neg hd, if_neg hd, if_neg ha, if_neg ha]
    exact ⟨rfl, rfl⟩

/-- Witness for C6: the bound values at concrete indices of the concrete
configuration (`N = 3`): a state slot, a steering slot and an
acceleration slot. -/
theorem decision_bounds_witness :
    (0 < 6 * testConfig.N ∧ 0 < testConfig.N - 1) ∧
    (vars_lowerbound testConfig).getD 0 0 = -(10 ^ 19) ∧
    (vars_lowerbound testConfig).getD (delta_start testConfig) 0 =
      -0.436332 ∧
    (vars_upperbound testConfig).getD (a_start testConfig) 0 = 1 :=
  ⟨⟨by decide, by decide⟩,
    ((decision_bounds testConfig).2.2.1 0 (by decide)).1,
    ((decision_bounds testConfig).2.2.2.1 0 (by decide)).1,
    ((decision_bounds testConfig).2.2.2.2 0 (by decide)).2⟩

/-- C7: the decision-vector seed has length `N*6 + (N-1)*2`; the `t = 0`
slot of channel `k` (at index `k·N`) holds the corresponding observed
state component, and every other entry is zero. -/
theorem seed_vector (cfg : Config) (state : List ℚ) (hN : 1 ≤ cfg.N) :
    (buildVars cfg state).length = cfg.N * 6 + (cfg.N - 1) * 2 ∧
    (∀ k : Fin 6,
      (buildVars cfg state).getD (k.val * cfg.N) 0 = elt state k.val) ∧
    (∀ i, i < n_vars cfg → (∀ k : Fin 6, i ≠ k.val * cfg.N) →
      (buildVars cfg state).getD i 0 = 0) := by
  refine ⟨by simp [buildVars, length_pinState, n_vars], ?_, ?_⟩
  · intro k
    have hb : k.val * cfg.N < (List.replicate (n_vars cfg) (0 : ℚ)).length := by
      simp only [List.length_replicate, n_vars]
      have : k.val * cfg.N ≤ 5 * cfg.N := Nat.mul_le_mul_right _ (by omega)
      omega
    rw [buildVars, getD_pinState _ _ _ _ hb]
    simp only [x_start, y_start, psi_start, v_start, cte_start, epsi_start]
    fin_cases k <;> simp only [Fin.isValue, Fin.val_zero, Fin.val_one] <;>
      split_ifs <;> first | rfl | omega
  · intro i hi hk
    have h0 : i ≠ 0 * cfg.N := hk 0
    have h1 : i ≠ 1 * cfg.N := hk 1
    have h2 : i ≠ 2 * cfg.N := hk 2
    have h3 : i ≠ 3 * cfg.N := hk 3
    have h4 : i ≠ 4 * cfg.N := hk 4
    have h5 : i ≠ 5 * cfg.N := hk 5
    have hb : i < (List.replicate (n_vars cfg) (0 : ℚ)).length := by
      simpa using hi
    rw [buildVars, getD_pinState _ _ _ _ hb]
    simp only [x_start, y_start, psi_start, v_start, cte_start, epsi_start]
    split_ifs <;> first | omega | simp

/-- Witness for C7: the seed at the concrete configuration and state
`(1,2,3,4,5,6)` — the `y` slot (index `1·N = 3`) holds `2`, and a
non-slot entry is `0`. -/
theorem seed_vector_witness :
    1 ≤ testConfig.N ∧
    (buildVars testConfig [1, 2, 3, 4, 5, 6]).getD (1 * testConfig.N) 0 =
      elt [1, 2, 3, 4, 5, 6] 1 ∧
    (buildVars testConfig [1, 2, 3, 4, 5, 6]).getD 1 0 = 0 :=
  ⟨by decide,
    by
      simpa using
        (seed_vector testConfig [1, 2, 3, 4, 5, 6] (by decide)).2.1 1,
    (seed_vector testConfig [1, 2, 3, 4, 5, 6] (by decide)).2.2 1 (by decide)
      (by decide)⟩

/-- Refutation of C3 as stated: the initial-state block is *not* rows
0..5.  At `N = 3` and state `(1,2,3,4,5,6)`, row 1 — which the claim
places in the initial-state block with both bounds equal to the `y`
component 2 — has lower bound 0 (it is the `t = 1` residual row of the
`x` channel under the channel-contiguous layout). -/
theorem constraint_bounds_counterexample :
    (constraints_lowerbound testConfig [1, 2, 3, 4, 5, 6]).getD 1 0 = 0 ∧
    elt [1, 2, 3, 4, 5, 6] 1 = 2 ∧ (0 : ℚ) ≠ 2 :=
  ⟨rfl, rfl, by norm_num⟩

/-- C3 (amended): the constraint vector and both constraint-bound arrays
have length `N*6`; the row of channel `k` at step `t` sits at flat index
`k·N + t` (channel-contiguous layout, not `t·6 + k`); the initial-state
block is exactly the rows `{k·N : k < 6}`, pinned on both bounds to the
corresponding state component, and every other row has lower and upper
bound 0. -/
theorem constraint_bounds (cfg : Config) (state : List ℚ)
    (hN : 1 ≤ cfg.N) :
    ((constraints_lowerbound cfg state).length = cfg.N * 6 ∧
      (constraints_upperbound cfg state).length = cfg.N * 6) ∧
    (∀ (T : TrigOps) (coeffs : List ℚ) (vars : ℕ → ℚ),
      (fgVec cfg T coeffs vars).length = cfg.N * 6) ∧
    (∀ (T : TrigOps) (coeffs : List ℚ) (vars : ℕ → ℚ) (k : Fin 6) (t : ℕ),
      t < cfg.N →
      (fgVec cfg T coeffs vars).getD (k.val * cfg.N + t) 0 =
        fgChan cfg T coeffs vars k.val t) ∧
    (∀ k : Fin 6,
      (constraints_lowerbound cfg state).getD (k.val * cfg.N) 0 =
        elt state k.val ∧
      (constraints_upperbound cfg state).getD (k.val * cfg.N) 0 =
        elt state k.val) ∧
    (∀ i, i < cfg.N * 6 → (∀ k : Fin 6, i ≠ k.val * cfg.N) →
      (constraints_lowerbound cfg state).getD i 0 = 0 ∧
      (constraints_upperbound cfg state).getD i 0 = 0) := by
  have hpin : ∀ k : Fin 6,
      (constraints_lowerbound cfg state).getD (k.val * cfg.N) 0 =
        elt state k.val := by
    intro k
    have hb : k.val * cfg.N <
        (List.replicate (n_constraints cfg) (0 : ℚ)).length := by
      simp only [List.length_replicate, n_constraints]
      have : k.val * cfg.N ≤ 5 * cfg.N := Nat.mul_le_mul_right _ (by omega)
      omega
    rw [constraints_lowerbound, getD_pinState _ _ _ _ hb]
    simp only [x_start, y_start, psi_start, v_start, cte_start, epsi_start]
    fin_cases k <;> simp only [Fin.isValue, Fin.val_zero, Fin.val_one] <;>
      split_ifs <;> first | rfl | omega
  have hzero : ∀ i, i < cfg.N * 6 → (∀ k : Fin 6, i ≠ k.val * cfg.N) →
      (constraints_lowerbound cfg state).getD i 0 = 0 := by
    intro i hi hk
    have h0 : i ≠ 0 * cfg.N := hk 0
    have h1 : i ≠ 1 * cfg.N := hk 1
    have h2 : i ≠ 2 * cfg.N := hk 2
    have h3 : i ≠ 3 * cfg.N := hk 3
    have h4 : i ≠ 4 * cfg.N := hk 4
    have h5 : i ≠ 5 * cfg.N := hk 5
    have hb : i < (List.replicate (n_constraints cfg) (0 : ℚ)).length := by
      simp only [List.length_replicate, n_constraints]; omega
    rw [constraints_lowerbound, getD_pinState _ _ _ _ hb]
    simp only [x_start, y_start, psi_start, v_start, cte_start, epsi_start]
    split_ifs <;> first | omega | simp
  refine ⟨⟨?_, ?_⟩, ?_, ?_, ?_, ?_⟩
  · simp [constraints_lowerbound, length_pinState, n_constraints]
  · simp [constraints_upperbound, constraints_lowerbound, length_pinState,
      n_constraints]
  · intro T coeffs vars
    simp [fgVec, List.length_ofFn, n_constraints]
  · intro T coeffs vars k t ht
    exact fgVec_getD cfg T coeffs vars k.val t k.isLt ht
  · intro k
    exact ⟨hpin k, hpin k⟩
  · intro i hi hk
    exact ⟨hzero i hi hk, hzero i hi hk⟩

/-- Witness for C3 (amended): at `N = 3` and state `(1,2,3,4,5,6)` the
pinned `y` row sits at index `1·N = 3` and carries the component 2 on
both bounds, while row 1 carries bounds 0. -/
theorem constraint_bounds_witness :
    1 ≤ testConfig.N ∧
    (constraints_lowerbound testConfig [1, 2, 3, 4, 5, 6]).getD
        (1 * testConfig.N) 0 = elt [1, 2, 3, 4, 5, 6] 1 ∧
    (constraints_upperbound testConfig [1, 2, 3, 4, 5, 6]).getD 1 0 = 0 :=
  ⟨by decide,
    by
      simpa using
        ((constraint_bounds testConfig [1, 2, 3, 4, 5, 6]
          (by decide)).2.2.2.1 1).1,
    ((constraint_bounds testConfig [1, 2, 3, 4, 5, 6] (by decide)).2.2.2.2 1
      (by decide) (by decide)).2⟩

/-- Refutation of C8 as stated: with the zero state and zero polynomial,
the objective at the all-zero decision vector is not 0 — the speed term
`10·(v_t − ref_v)²` contributes `10·ref_v²` for each `t` in `[1, N)`.
At the concrete configuration (`N = 3`, `ref_v = 40`) the objective is
32000. -/
theorem degenerate_case_counterexample :
    cost testConfig zeroVars = 32000 ∧ (32000 : ℚ) ≠ 0 := by
  constructor
  · rw [cost_eq_costSpec]
    simp [costSpec, zeroVars, testConfig, Finset.sum_Ico_eq_sum_range,
      Finset.sum_range_succ]
    norm_num
  · norm_num

/-- C8 (amended): with `VehicleState = (0,0,0,0,0,0)` and
`ReferencePolynomial = (0,0,0,0)`, the all-zero decision vector is
feasible — every constraint row evaluates within its bounds (given
`atan 0 = 0`) and the vector lies within the decision bounds — but the
objective at it equals `10·(N−1)·ref_v²`, which is 0 only when
`ref_v = 0` or `N ≤ 1`. -/
theorem degenerate_case (cfg : Config) (T : TrigOps)
    (hatan : T.atan 0 = 0) :
    (∀ i, i < n_constraints cfg →
      (constraints_lowerbound cfg zeroState).getD i 0 ≤
        (fgVec cfg T zeroCoeffs zeroVars).getD i 0 ∧
      (fgVec cfg T zeroCoeffs zeroVars).getD i 0 ≤
        (constraints_upperbound cfg zeroState).getD i 0) ∧
    (∀ i, i < n_vars cfg →
      (vars_lowerbound cfg).getD i 0 ≤ 0 ∧
      (0 : ℚ) ≤ (vars_upperbound cfg).getD i 0) ∧
    cost cfg zeroVars = 10 * ((cfg.N - 1 : ℕ) : ℚ) * cfg.ref_v ^ 2 := by
  have hchan : ∀ k t, fgChan cfg T zeroCoeffs zeroVars k t = 0 := by
    have hc : ∀ j, elt zeroCoeffs j = 0 := by
      intro j
      rcases j with _ | _ | _ | _ | j <;> rfl
    intro k t
    rcases k with _ | _ | _ | _ | _ | k
    · rcases t with _ | n <;> simp [fgChan, fg_x, zeroVars]
    · rcases t with _ | n <;> simp [fgChan, fg_y, zeroVars]
    · rcases t with _ | n <;> simp [fgChan, fg_psi, zeroVars]
    · rcases t with _ | n <;> simp [fgChan, fg_v, zeroVars]
    · rcases t with _ | n <;> simp [fgChan, fg_cte, f0, hc, zeroVars]
    · rcases t with _ | n <;> simp [fgChan, fg_epsi, psides0, hc, zeroVars,
        hatan]
  have hbound : constraints_lowerbound cfg zeroState =
      List.replicate (n_constraints cfg) 0 := by
    simp [constraints_lowerbound, pinState, elt, zeroState,
      List.set_replicate_self]
  have hrep : ∀ i, (List.replicate (n_constraints cfg) (0 : ℚ)).getD i 0 = 0 := by
    intro i
    rw [List.getD_eq_getElem?_getD, List.getElem?_replicate]
    split <;> rfl
  have hrow : ∀ i, i < n_constraints cfg →
      (fgVec cfg T zeroCoeffs zeroVars).getD i 0 = 0 := by
    intro i hi
    have h : i < (fgVec cfg T zeroCoeffs zeroVars).length := by
      simpa [fgVec, List.length_ofFn] using hi
    rw [List.getD_eq_getElem _ _ h]
    simp only [fgVec, List.getElem_ofFn]
    exact hchan _ _
  refine ⟨?_, ?_, ?_⟩
  · intro i hi
    rw [hrow i hi, constraints_upperbound, hbound, hrep]
    exact ⟨le_refl 0, le_refl 0⟩
  · intro i hi
    have h : i < (vars_lowerbound cfg).length := by
      simpa [vars_lowerbound, List.length_ofFn] using hi
    have h2 : i < (vars_upperbound cfg).length := by
      simpa [vars_upperbound, List.length_ofFn] using hi
    rw [List.getD_eq_getElem _ _ h, List.getD_eq_getElem _ _ h2]
    simp only [vars_lowerbound, vars_upperbound, List.getElem_ofFn]
    constructor
    · split_ifs <;> norm_num
    · split_ifs <;> norm_num
  · rw [cost_eq_costSpec]
    unfold costSpec
    simp [zeroVars, Finset.sum_const, Nat.card_Ico, nsmul_eq_mul]
    ring_nf

/-- Witness for C8 (amended): the concrete trig interpretation satisfies
`atan 0 = 0`, and at the concrete configuration the all-zero vector's
objective evaluates to `10·(N−1)·ref_v²`. -/
theorem degenerate_case_witness :
    testTrig.atan 0 = 0 ∧
    cost testConfig zeroVars =
      10 * ((testConfig.N - 1 : ℕ) : ℚ) * testConfig.ref_v ^ 2 :=
  ⟨rfl, (degenerate_case testConfig testTrig rfl).2.2⟩

/-- C1 (code evaluated at the failing situation): `MPC::Solve` computes
`ok &= (status == success)` but never reads it again — its return value
is a bare primal vector that is *identical* for a failed and a successful
solver status, so no distinct degraded/failed status ever reaches the
caller and a non-converged solve's primal values are presented exactly
like a successful one's. -/
theorem solve_status_not_surfaced (cfg : Config) (state coeffs x : List ℚ)
    (obj : ℚ) (s1 s2 : SolveStatus) :
    Solve cfg (fun _ => ⟨s1, obj, x⟩) state coeffs =
      Solve cfg (fun _ => ⟨s2, obj, x⟩) state coeffs ∧
    (Solve cfg (fun _ => ⟨s1, obj, x⟩) state coeffs).1 = x :=
  ⟨rfl, rfl⟩

/-- C2 (code evaluated at the failing input): with an ill-formed
configuration (`N = 2 < 3`, `Lf = 0`) and a 3-entry coefficient list,
`MPC::Solve` performs no validation at all: it proceeds to invoke the
solver and returns the solver's primal vector as an ordinary result —
there is no distinct error outcome (the return type has no error
channel). -/
theorem solve_accepts_ill_formed :
    Solve badConfig (fun _ => ⟨SolveStatus.success, 5, [9]⟩)
        [0, 0, 0, 0, 0, 0] [1, 2, 3] =
      ([9], ["Cost 5"]) :=
  rfl

/-- Refutation of C9 as stated: a call to `Solve` is not free of
observable output — it unconditionally prints a `Cost` line to standard
output (MPC.cpp line 224), modelled as the second component of the
result. -/
theorem solve_output_nonempty :
    (Solve testConfig (fun _ => ⟨SolveStatus.success, 5, []⟩)
        zeroState zeroCoeffs).2 ≠ [] := by
  simp [Solve]

/-- C9 (amended): `Solve` retains no state across calls — its result is a
pure function of the configuration, the solver oracle, the state and the
coefficients — but it does perform one observable output effect per call:
it writes the single diagnostic line `"Cost <obj_value>"` to standard
output. -/
theorem solve_effects (cfg : Config) (solver : NLPProblem → SolveResult)
    (state coeffs : List ℚ) :
    Solve cfg solver state coeffs =
      ((solver (mkProblem cfg state coeffs)).x,
        ["Cost " ++ toString (solver (mkProblem cfg state coeffs)).obj_value]) :=
  rfl

end MPCModel
